import Mathlib

/-!
Verification of the innings simulation engine of the IPL-like tournament
simulator (src/tournmant.cpp), as a shallow embedding in Lean.

The embedding follows the C++ source closely:
* `PlayerState` carries the fields of `Player` together with the fields of the
  subclasses `Batsman` and `Bowler`; the `type` tag drives the same virtual
  dispatch the C++ performs (`Batsman`/`Bowler` override some of
  `addRuns`/`addBall`/`addWicket`/`updateCredits`; `AllRounder` overrides only
  `updateCredits`, so it receives the base-class `Player` behaviour for the
  other three).
* `Innings` carries the mutable play state of class `Innings`.  The innings
  maps `playerRuns`/`playerWickets` (keyed by player in C++) are kept as lists
  parallel to the batting/bowling orders.  `overLog` is a ghost field: it
  records, most recent first, the index of the bowler of each completed over
  (observable in the source through the per-ball commentary); it has no
  influence on the dynamics.
* The source hardcodes 2 wickets, 2 overs and 6 balls per over
  (`Innings::isInningsComplete`, `Innings::playBall`).  The wicket and over
  limits are the two configuration knobs named by the spec (its default
  configuration), so they are carried in a `Config` whose `sourceConfig`
  instantiation `(2, 2)` restores the source literally; balls per over stays
  the source's literal 6.
* The random draw of `playBall` picks an element of `{0,...,6}` with 5 read as
  a wicket; the step function takes the drawn `outcome` as an argument, and a
  whole innings is driven by `runBalls` over a list of outcomes.
-/

namespace TournSim

/-- `enum class PlayerType` of the source. -/
inductive PlayerType where
  | BATSMAN
  | BOWLER
  | ALLROUNDER
deriving DecidableEq

/-- The data of a `Player` together with the subclass fields of `Batsman`
(`runsScored`, `ballsFaced`, `fours`, `sixes`) and of `Bowler`
(`wicketsTaken`, `runsConceded`, `ballsBowled`, `maidens`).  All C++ counters
are `int`s that are only ever incremented by non-negative amounts, so they are
modelled as `Nat`. -/
structure PlayerState where
  name : String
  age : Nat
  type : PlayerType
  totalCredits : Nat
  matchCredits : Nat
  totalRunsScored : Nat
  totalBallsFaced : Nat
  totalWicketsTaken : Nat
  totalBallsBowled : Nat
  totalRunsConceded : Nat
  runsScored : Nat
  ballsFaced : Nat
  fours : Nat
  sixes : Nat
  wicketsTaken : Nat
  runsConceded : Nat
  ballsBowled : Nat
  maidens : Nat
deriving DecidableEq

/-- The `Player`/`Batsman`/`Bowler`/`AllRounder` constructors: every counter
starts at zero. -/
def mkPlayer (n : String) (a : Nat) (t : PlayerType) : PlayerState :=
  { name := n, age := a, type := t, totalCredits := 0, matchCredits := 0,
    totalRunsScored := 0, totalBallsFaced := 0, totalWicketsTaken := 0,
    totalBallsBowled := 0, totalRunsConceded := 0, runsScored := 0,
    ballsFaced := 0, fours := 0, sixes := 0, wicketsTaken := 0,
    runsConceded := 0, ballsBowled := 0, maidens := 0 }

/-- Virtual `updateCredits(runs, wickets)`: `Batsman` adds `runs / 20`
(the source comments this `20 runs = 1 credit`), `Bowler` adds `wickets`,
`AllRounder` adds both; each amount goes to `matchCredits` and to
`totalCredits` alike. -/
def updateCredits (p : PlayerState) (runs wickets : Nat) : PlayerState :=
  match p.type with
  | PlayerType.BATSMAN =>
      { p with matchCredits := p.matchCredits + runs / 20,
               totalCredits := p.totalCredits + runs / 20 }
  | PlayerType.BOWLER =>
      { p with matchCredits := p.matchCredits + wickets,
               totalCredits := p.totalCredits + wickets }
  | PlayerType.ALLROUNDER =>
      { p with matchCredits := p.matchCredits + runs / 20 + wickets,
               totalCredits := p.totalCredits + runs / 20 + wickets }

/-- Virtual `addRuns(runs)`: `Batsman::addRuns` bumps `runsScored` and the
career total, updates credits with this ball's runs, and counts boundaries;
`Bowler::addRuns` bumps `runsConceded` (it is the subclass override that the
engine dispatches to whenever a `Bowler`-typed player is the one addressed);
`AllRounder` does not override `addRuns`, so it gets `Player::addRuns`, which
only bumps `totalRunsScored`. -/
def addRuns (p : PlayerState) (runs : Nat) : PlayerState :=
  match p.type with
  | PlayerType.BATSMAN =>
      let p1 := { p with runsScored := p.runsScored + runs,
                         totalRunsScored := p.totalRunsScored + runs }
      let p2 := updateCredits p1 runs 0
      if runs = 4 then { p2 with fours := p2.fours + 1 }
      else if runs = 6 then { p2 with sixes := p2.sixes + 1 }
      else p2
  | PlayerType.BOWLER =>
      { p with runsConceded := p.runsConceded + runs,
               totalRunsConceded := p.totalRunsConceded + runs }
  | PlayerType.ALLROUNDER =>
      { p with totalRunsScored := p.totalRunsScored + runs }

/-- Virtual `addBall()`: `Batsman::addBall` counts a ball faced,
`Bowler::addBall` counts a ball bowled; `AllRounder` gets `Player::addBall`,
which bumps `totalBallsBowled`. -/
def addBall (p : PlayerState) : PlayerState :=
  match p.type with
  | PlayerType.BATSMAN =>
      { p with ballsFaced := p.ballsFaced + 1,
               totalBallsFaced := p.totalBallsFaced + 1 }
  | PlayerType.BOWLER =>
      { p with ballsBowled := p.ballsBowled + 1,
               totalBallsBowled := p.totalBallsBowled + 1 }
  | PlayerType.ALLROUNDER =>
      { p with totalBallsBowled := p.totalBallsBowled + 1 }

/-- Virtual `addWicket()`: `Bowler::addWicket` bumps its tally and earns one
credit via `updateCredits(0, 1)`; `Batsman` and `AllRounder` do not override
it, so they get `Player::addWicket`, which only bumps `totalWicketsTaken`. -/
def addWicket (p : PlayerState) : PlayerState :=
  match p.type with
  | PlayerType.BOWLER =>
      let p1 := { p with wicketsTaken := p.wicketsTaken + 1,
                         totalWicketsTaken := p.totalWicketsTaken + 1 }
      updateCredits p1 0 1
  | _ => { p with totalWicketsTaken := p.totalWicketsTaken + 1 }

/-- Virtual `resetMatchStats()` (with the base `resetMatchCredits()`): it
zeroes the subclass per-match fields and `matchCredits`.  The source defines
it on every subclass, but no caller on the tournament path
(`Tournament::playTournament` / `playRound` / `Match::playMatch`) ever invokes
it. -/
def resetMatchStats (p : PlayerState) : PlayerState :=
  match p.type with
  | PlayerType.BATSMAN =>
      { p with runsScored := 0, ballsFaced := 0, fours := 0, sixes := 0,
               matchCredits := 0 }
  | PlayerType.BOWLER =>
      { p with wicketsTaken := 0, runsConceded := 0, ballsBowled := 0,
               maidens := 0, matchCredits := 0 }
  | PlayerType.ALLROUNDER =>
      { p with matchCredits := 0 }

/-- Pointwise update of the `i`-th entry of a list, the shape of every
`order[index]->mutation()` and `map[player]++` statement of `Innings`. -/
def modifyAt {α : Type} (f : α → α) : List α → Nat → List α
  | [], _ => []
  | x :: xs, 0 => f x :: xs
  | x :: xs, n + 1 => x :: modifyAt f xs n

/-- The two limits `Innings::isInningsComplete` compares against.  The source
hardcodes both to 2; the spec names them `maxWickets` and `maxOvers`. -/
structure Config where
  maxWickets : Nat
  maxOvers : Nat
deriving DecidableEq

/-- The source configuration: 2 wickets, 2 overs. -/
def sourceConfig : Config := { maxWickets := 2, maxOvers := 2 }

/-- The state of class `Innings`.  `playerRuns` and `playerWickets` are the
innings-scoped per-player maps, parallel to `battingOrder` and `bowlingOrder`
respectively.  `overLog` is the ghost record of the bowler index of each
completed over, most recent first. -/
structure Innings where
  battingOrder : List PlayerState
  bowlingOrder : List PlayerState
  currentBatsman1 : Nat
  currentBatsman2 : Nat
  currentBowler : Nat
  previousBowler : Int
  totalRuns : Nat
  totalWickets : Nat
  totalOvers : Nat
  totalBalls : Nat
  currentOverBalls : Nat
  playerRuns : List Nat
  playerWickets : List Nat
  overLog : List Nat
deriving DecidableEq

/-- The `Innings` constructor: openers at positions 0 and 1, bowler 0,
`previousBowler = -1`, all counters zero, and the per-player maps initialised
to zero for every listed player. -/
def initInnings (batting bowling : List PlayerState) : Innings :=
  { battingOrder := batting, bowlingOrder := bowling,
    currentBatsman1 := 0, currentBatsman2 := 1, currentBowler := 0,
    previousBowler := -1, totalRuns := 0, totalWickets := 0, totalOvers := 0,
    totalBalls := 0, currentOverBalls := 0,
    playerRuns := List.replicate batting.length 0,
    playerWickets := List.replicate bowling.length 0, overLog := [] }

/-- The body of the name-lookup loops of `Innings::setBatsmen` and
`Innings::setBowler`: walk the order carrying the running index value `cur`,
overwriting it at every position whose name matches (so the last match wins,
and an absent name leaves `cur` untouched). -/
def scanName : List PlayerState → String → Nat → Nat → Nat
  | [], _, _, cur => cur
  | p :: rest, target, i, cur =>
      scanName rest target (i + 1) (if p.name = target then i else cur)

/-- `Innings::setBatsmen(striker, nonStriker)`: one pass over the batting
order setting `currentBatsman1` at a striker name match and `currentBatsman2`
at a non-striker name match.  Note the return type: the source function is
`void` and reports nothing. -/
def setBatsmen (s : Innings) (striker nonStriker : String) : Innings :=
  { s with
    currentBatsman1 := scanName s.battingOrder striker 0 s.currentBatsman1,
    currentBatsman2 := scanName s.battingOrder nonStriker 0 s.currentBatsman2 }

/-- `Innings::setBowler(bowlerName)`: same lookup over the bowling order. -/
def setBowler (s : Innings) (bowlerName : String) : Innings :=
  { s with
    currentBowler := scanName s.bowlingOrder bowlerName 0 s.currentBowler }

/-- `Innings::changeStrike()`: swap the two batting indices. -/
def changeStrike (s : Innings) : Innings :=
  { s with currentBatsman1 := s.currentBatsman2,
           currentBatsman2 := s.currentBatsman1 }

/-- `Innings::changeBatsman()`: the incoming batter takes the position one
past the higher of the two current indices; if that position is out of range
nothing at all changes. -/
def changeBatsman (s : Innings) : Innings :=
  let nextBatsman := max s.currentBatsman1 s.currentBatsman2 + 1
  if nextBatsman < s.battingOrder.length then
    if s.currentBatsman1 > s.currentBatsman2 then
      { s with currentBatsman1 := nextBatsman }
    else
      { s with currentBatsman2 := nextBatsman }
  else s

/-- `Innings::changeBowler()`: remember the finishing bowler, then advance
cyclically.  The source's do-while re-runs its body while the new index still
equals the finishing bowler's; for a bowling order of length at least 2 the
body `(c + 1) % n` never equals `c` (see `changeBowler_body_ne`), so a single
execution of the body is the loop's result. -/
def changeBowler (s : Innings) : Innings :=
  { s with previousBowler := (s.currentBowler : Int),
           currentBowler := (s.currentBowler + 1) % s.bowlingOrder.length }

/-- `Innings::isInningsComplete()`: the source reads
`totalWickets >= 2 || totalOvers >= 2`, the two 2s being the configuration
limits. -/
def isInningsComplete (cfg : Config) (s : Innings) : Bool :=
  decide (cfg.maxWickets ≤ s.totalWickets) ||
    decide (cfg.maxOvers ≤ s.totalOvers)

/-- `Innings::playBall()` with the randomly drawn element of
`ballOutcomes = {0,1,2,3,4,5,6}` (5 read as a wicket) passed in as
`outcome`.  The statement order follows the source: completion guard; wicket
or runs branch; ball-count epilogue (which gives the current bowler another
`addBall()`); over-boundary rotation. -/
def playBall (cfg : Config) (s : Innings) (outcome : Nat) : Innings :=
  if isInningsComplete cfg s then s
  else
    let s1 :=
      if outcome = 5 then
        let sW :=
          { s with
            totalWickets := s.totalWickets + 1,
            playerWickets := modifyAt (· + 1) s.playerWickets s.currentBowler,
            bowlingOrder :=
              modifyAt (fun p => addBall (addWicket p)) s.bowlingOrder
                s.currentBowler }
        changeBatsman sW
      else
        let sR :=
          { s with
            totalRuns := s.totalRuns + outcome,
            playerRuns := modifyAt (· + outcome) s.playerRuns s.currentBatsman1,
            battingOrder :=
              modifyAt (fun p => addBall (addRuns p outcome)) s.battingOrder
                s.currentBatsman1 }
        if outcome % 2 = 1 then changeStrike sR else sR
    let s2 :=
      { s1 with
        totalBalls := s1.totalBalls + 1,
        currentOverBalls := s1.currentOverBalls + 1,
        bowlingOrder := modifyAt addBall s1.bowlingOrder s1.currentBowler }
    if s2.currentOverBalls = 6 then
      { changeBowler s2 with
        currentOverBalls := 0,
        totalOvers := s2.totalOvers + 1,
        overLog := s2.currentBowler :: s2.overLog }
    else s2

/-- The driving loop `while (!isInningsComplete()) playBall();` applied to a
fixed list of drawn outcomes (`playBall` is a no-op on a complete innings, so
surplus outcomes are harmless). -/
def runBalls (cfg : Config) (s : Innings) : List Nat → Innings
  | [] => s
  | o :: rest => runBalls cfg (playBall cfg s o) rest

/-- The scan of `Innings::getPlayerOfInnings` (and of
`Statistics::getPlayerOfMatch`): keep the first player whose match credits
strictly exceed the running maximum, which starts at the `int` value -1. -/
def scanBest : List PlayerState → Option PlayerState × Int →
    Option PlayerState × Int
  | [], acc => acc
  | p :: rest, (best, m) =>
      if m < (p.matchCredits : Int) then
        scanBest rest (some p, (p.matchCredits : Int))
      else scanBest rest (best, m)

/-- `Innings::getPlayerOfInnings()`: the scan runs over the batting order and
then continues over the bowling order with the same accumulator. -/
def getPlayerOfInnings (s : Innings) : Option PlayerState :=
  (scanBest s.bowlingOrder (scanBest s.battingOrder (none, -1))).1

/-- `Match::calculatePlayerOfMatch()`: compare the two innings' awardees,
returning `player1` only on a strictly greater credit count.  The source
dereferences both awardees unconditionally; an awardee can be missing only
for empty orders, modelled as `none`. -/
def calculatePlayerOfMatch (i1 i2 : Innings) : Option PlayerState :=
  match getPlayerOfInnings i1, getPlayerOfInnings i2 with
  | some p1, some p2 =>
      if p1.matchCredits > p2.matchCredits then some p1 else some p2
  | _, _ => none

/-- Adjacent entries of a list all differ (used on the ghost `overLog`). -/
def noConsecutiveRepeat : List Nat → Bool
  | a :: b :: t => (a != b) && noConsecutiveRepeat (b :: t)
  | _ => true

/-! ### Basic lemmas about the helpers -/

theorem modifyAt_length {α : Type} (f : α → α) (l : List α) (i : Nat) :
    (modifyAt f l i).length = l.length := by
  induction l generalizing i with
  | nil => rfl
  | cons x xs ih =>
    cases i with
    | zero => rfl
    | succ n => simpa [modifyAt] using ih n

theorem modifyAt_get? {α : Type} (f : α → α) (l : List α) (i : Nat) :
    (modifyAt f l i).get? i = (l.get? i).map f := by
  induction l generalizing i with
  | nil => rfl
  | cons x xs ih =>
    cases i with
    | zero => rfl
    | succ n => simpa [modifyAt] using ih n

/-- For a bowling order of length at least 2, the body of the do-while of
`Innings::changeBowler` already lands on an index different from the
finishing bowler's, so the loop runs it exactly once. -/
theorem changeBowler_body_ne (c n : Nat) (h : 2 ≤ n) : (c + 1) % n ≠ c := by
  have hlt : (c + 1) % n < n := Nat.mod_lt _ (by omega)
  by_cases h1 : c + 1 < n
  · rw [Nat.mod_eq_of_lt h1]; omega
  · by_cases h2 : c + 1 = n
    · rw [h2, Nat.mod_self]; omega
    · omega

/-- A not-yet-complete innings is strictly below both limits. -/
theorem not_complete_bounds {cfg : Config} {s : Innings}
    (h : isInningsComplete cfg s = false) :
    s.totalWickets < cfg.maxWickets ∧ s.totalOvers < cfg.maxOvers := by
  simp only [isInningsComplete, Bool.or_eq_false_iff, decide_eq_false_iff_not,
    not_le] at h
  exact h

/-! ### Step lemmas for `playBall` -/

theorem playBall_complete {cfg : Config} {s : Innings}
    (h : isInningsComplete cfg s = true) (o : Nat) : playBall cfg s o = s := by
  simp [playBall, h]

theorem runBalls_complete {cfg : Config} {s : Innings}
    (h : isInningsComplete cfg s = true) (outs : List Nat) :
    runBalls cfg s outs = s := by
  induction outs with
  | nil => rfl
  | cons o rest ih => rw [runBalls, playBall_complete h, ih]

theorem playBall_bowlingOrder_length (cfg : Config) (s : Innings) (o : Nat) :
    (playBall cfg s o).bowlingOrder.length = s.bowlingOrder.length := by
  by_cases hc : isInningsComplete cfg s = true
  · rw [playBall_complete hc]
  · have hc' : isInningsComplete cfg s = false := by
      simpa using hc
    simp only [playBall, hc', Bool.false_eq_true, if_false]
    by_cases h5 : o = 5 <;>
      simp only [h5, if_true, if_false, changeBatsman, changeStrike,
        changeBowler] <;>
      split_ifs <;>
      simp [modifyAt_length]

theorem playBall_totalBalls {cfg : Config} {s : Innings} {o : Nat}
    (hc : isInningsComplete cfg s = false) :
    (playBall cfg s o).totalBalls = s.totalBalls + 1 := by
  simp only [playBall, hc, Bool.false_eq_true, if_false]
  by_cases h5 : o = 5 <;>
    simp only [h5, if_true, if_false, changeBatsman, changeStrike,
      changeBowler] <;>
    split_ifs <;>
    simp

theorem playBall_totalWickets {cfg : Config} {s : Innings} {o : Nat}
    (hc : isInningsComplete cfg s = false) :
    (playBall cfg s o).totalWickets =
      s.totalWickets + (if o = 5 then 1 else 0) := by
  simp only [playBall, hc, Bool.false_eq_true, if_false]
  by_cases h5 : o = 5 <;>
    simp only [h5, if_true, if_false, changeBatsman, changeStrike,
      changeBowler] <;>
    split_ifs <;>
    simp

theorem playBall_overCount {cfg : Config} {s : Innings} {o : Nat}
    (hc : isInningsComplete cfg s = false) :
    (if s.currentOverBalls + 1 = 6 then
      (playBall cfg s o).totalOvers = s.totalOvers + 1 ∧
        (playBall cfg s o).currentOverBalls = 0
    else
      (playBall cfg s o).totalOvers = s.totalOvers ∧
        (playBall cfg s o).currentOverBalls = s.currentOverBalls + 1) := by
  simp only [playBall, hc, Bool.false_eq_true, if_false]
  by_cases h5 : o = 5 <;>
    simp only [h5, if_true, if_false, changeBatsman, changeStrike,
      changeBowler] <;>
    split_ifs <;>
    simp_all

theorem playBall_overLog {cfg : Config} {s : Innings} {o : Nat}
    (hc : isInningsComplete cfg s = false) :
    (if s.currentOverBalls + 1 = 6 then
      (playBall cfg s o).overLog = s.currentBowler :: s.overLog ∧
        (playBall cfg s o).currentBowler =
          (s.currentBowler + 1) % s.bowlingOrder.length
    else
      (playBall cfg s o).overLog = s.overLog ∧
        (playBall cfg s o).currentBowler = s.currentBowler) := by
  simp only [playBall, hc, Bool.false_eq_true, if_false]
  by_cases h5 : o = 5 <;>
    simp only [h5, if_true, if_false, changeBatsman, changeStrike,
      changeBowler] <;>
    split_ifs <;>
    simp_all [modifyAt_length]

/-! ### Termination and bounds (claim C5) -/

/-- The over/ball bookkeeping invariant: fewer than 6 balls into the current
over, and completed overs and current-over balls account for every ball
bowled. -/
def CountInv (s : Innings) : Prop :=
  s.currentOverBalls < 6 ∧
    s.totalOvers * 6 + s.currentOverBalls = s.totalBalls

theorem countInv_init (batting bowling : List PlayerState) :
    CountInv (initInnings batting bowling) := by
  constructor <;> simp [initInnings]

theorem countInv_step {cfg : Config} {s : Innings} (o : Nat)
    (h : CountInv s) : CountInv (playBall cfg s o) := by
  by_cases hc : isInningsComplete cfg s = true
  · rwa [playBall_complete hc]
  · have hc' : isInningsComplete cfg s = false := by simpa using hc
    obtain ⟨h1, h2⟩ := h
    have hov := playBall_overCount (o := o) hc'
    have hb := playBall_totalBalls (o := o) hc'
    by_cases h6 : s.currentOverBalls + 1 = 6
    · rw [if_pos h6] at hov
      exact ⟨by omega, by omega⟩
    · rw [if_neg h6] at hov
      exact ⟨by omega, by omega⟩

theorem countInv_runBalls {cfg : Config} {s : Innings} (outs : List Nat)
    (h : CountInv s) : CountInv (runBalls cfg s outs) := by
  induction outs generalizing s with
  | nil => exact h
  | cons o rest ih => exact ih (countInv_step o h)

theorem wickets_le_runBalls {cfg : Config} {s : Innings} (outs : List Nat)
    (h : s.totalWickets ≤ cfg.maxWickets) :
    (runBalls cfg s outs).totalWickets ≤ cfg.maxWickets := by
  induction outs generalizing s with
  | nil => exact h
  | cons o rest ih =>
    refine ih ?_
    by_cases hc : isInningsComplete cfg s = true
    · rwa [playBall_complete hc]
    · have hc' : isInningsComplete cfg s = false := by simpa using hc
      have hw := (not_complete_bounds hc').1
      have hstep : (playBall cfg s o).totalWickets ≤ s.totalWickets + 1 := by
        rw [playBall_totalWickets hc']
        split <;> omega
      omega

theorem overs_le_runBalls {cfg : Config} {s : Innings} (outs : List Nat)
    (h : s.totalOvers ≤ cfg.maxOvers) :
    (runBalls cfg s outs).totalOvers ≤ cfg.maxOvers := by
  induction outs generalizing s with
  | nil => exact h
  | cons o rest ih =>
    refine ih ?_
    by_cases hc : isInningsComplete cfg s = true
    · rwa [playBall_complete hc]
    · have hc' : isInningsComplete cfg s = false := by simpa using hc
      have ho := (not_complete_bounds hc').2
      have hov := playBall_overCount (o := o) hc'
      by_cases h6 : s.currentOverBalls + 1 = 6
      · rw [if_pos h6] at hov; omega
      · rw [if_neg h6] at hov; omega

/-- If the innings is still in progress after a run of balls, every one of
them was genuinely bowled. -/
theorem totalBalls_runBalls {cfg : Config} (outs : List Nat) (s : Innings)
    (h : isInningsComplete cfg (runBalls cfg s outs) = false) :
    (runBalls cfg s outs).totalBalls = s.totalBalls + outs.length := by
  induction outs generalizing s with
  | nil => simp [runBalls]
  | cons o rest ih =>
    by_cases hc : isInningsComplete cfg s = true
    · rw [runBalls, playBall_complete hc, runBalls_complete hc] at h
      rw [hc] at h
      exact absurd h (by simp)
    · have hc' : isInningsComplete cfg s = false := by simpa using hc
      rw [runBalls] at h ⊢
      rw [ih _ h, playBall_totalBalls hc']
      simp [Nat.add_assoc, Nat.add_comm 1]

/-! ### Concrete rosters (used by witnesses and concrete evaluations) -/

/-- A batting side of five `Batsman`s, as built by `Tournament::createPlayers`. -/
def teamBat : List PlayerState :=
  [mkPlayer "A1" 25 PlayerType.BATSMAN, mkPlayer "A2" 25 PlayerType.BATSMAN,
   mkPlayer "A3" 25 PlayerType.BATSMAN, mkPlayer "A4" 25 PlayerType.BATSMAN,
   mkPlayer "A5" 25 PlayerType.BATSMAN]

/-- A bowling side of five `Bowler`s. -/
def teamBowl : List PlayerState :=
  [mkPlayer "B1" 25 PlayerType.BOWLER, mkPlayer "B2" 25 PlayerType.BOWLER,
   mkPlayer "B3" 25 PlayerType.BOWLER, mkPlayer "B4" 25 PlayerType.BOWLER,
   mkPlayer "B5" 25 PlayerType.BOWLER]

/-- C5: for every configuration with `maxWickets ≥ 1` and `maxOvers ≥ 1`
(balls per over is the source's literal 6) and every outcome sequence,
stepping the innings from its initial state through `maxOvers * 6` balls
reaches the complete state, and the final wicket count and completed-over
count respect the two limits. -/
theorem innings_terminates_within_overs_cap (cfg : Config)
    (hw : 1 ≤ cfg.maxWickets) (ho : 1 ≤ cfg.maxOvers)
    (batting bowling : List PlayerState) (outs : List Nat)
    (hlen : cfg.maxOvers * 6 ≤ outs.length) :
    isInningsComplete cfg
        (runBalls cfg (initInnings batting bowling) outs) = true ∧
      (runBalls cfg (initInnings batting bowling) outs).totalWickets ≤
        cfg.maxWickets ∧
      (runBalls cfg (initInnings batting bowling) outs).totalOvers ≤
        cfg.maxOvers := by
  refine ⟨?_, wickets_le_runBalls outs (by simp [initInnings]),
    overs_le_runBalls outs (by simp [initInnings])⟩
  cases hfin : isInningsComplete cfg
      (runBalls cfg (initInnings batting bowling) outs) with
  | true => rfl
  | false =>
    exfalso
    have hballs := totalBalls_runBalls outs _ hfin
    have hinv :=
      @countInv_runBalls cfg (initInnings batting bowling) outs
        (countInv_init batting bowling)
    have hov := (not_complete_bounds hfin).2
    obtain ⟨h1, h2⟩ := hinv
    rw [show (initInnings batting bowling).totalBalls = 0 from rfl] at hballs
    omega

/-- Witness for C5 at the source configuration: five-a-side, twelve dot
balls. -/
theorem innings_terminates_within_overs_cap_witness :
    1 ≤ sourceConfig.maxWickets ∧ 1 ≤ sourceConfig.maxOvers ∧
      sourceConfig.maxOvers * 6 ≤ (List.replicate 12 0).length ∧
      (isInningsComplete sourceConfig
          (runBalls sourceConfig (initInnings teamBat teamBowl)
            (List.replicate 12 0)) = true ∧
        (runBalls sourceConfig (initInnings teamBat teamBowl)
            (List.replicate 12 0)).totalWickets ≤ sourceConfig.maxWickets ∧
        (runBalls sourceConfig (initInnings teamBat teamBowl)
            (List.replicate 12 0)).totalOvers ≤ sourceConfig.maxOvers) :=
  ⟨by decide, by decide, by decide,
    innings_terminates_within_overs_cap sourceConfig (by decide) (by decide)
      teamBat teamBowl (List.replicate 12 0) (by decide)⟩

/-! ### Bowler non-repetition (claim C8) -/

/-- Invariant tying the ghost over log to the rotation state: no two adjacent
logged overs share a bowler index, and the most recently logged bowler is not
the one currently bowling. -/
def OverLogInv (s : Innings) : Prop :=
  noConsecutiveRepeat s.overLog = true ∧
    ∀ x, s.overLog.head? = some x → x ≠ s.currentBowler

theorem overLogInv_step {cfg : Config} {s : Innings} (o : Nat)
    (h2 : 2 ≤ s.bowlingOrder.length) (h : OverLogInv s) :
    OverLogInv (playBall cfg s o) := by
  by_cases hc : isInningsComplete cfg s = true
  · rwa [playBall_complete hc]
  · have hc' : isInningsComplete cfg s = false := by simpa using hc
    have hov := playBall_overLog (o := o) hc'
    by_cases h6 : s.currentOverBalls + 1 = 6
    · rw [if_pos h6] at hov
      obtain ⟨hL, hB⟩ := hov
      constructor
      · rw [hL]
        cases hlog : s.overLog with
        | nil => rfl
        | cons a t =>
          have hne : a ≠ s.currentBowler := h.2 a (by rw [hlog]; rfl)
          have htail : noConsecutiveRepeat (a :: t) = true := by
            rw [← hlog]; exact h.1
          simp [noConsecutiveRepeat, htail, bne_iff_ne]
          exact fun he => hne he.symm
      · intro x hx
        rw [hL] at hx
        have hx' : s.currentBowler = x := by
          simpa using hx
        rw [← hx', hB]
        exact fun he => changeBowler_body_ne s.currentBowler
          s.bowlingOrder.length h2 he.symm
    · rw [if_neg h6] at hov
      obtain ⟨hL, hB⟩ := hov
      exact ⟨by rw [hL]; exact h.1, fun x hx => by
        rw [hB]; exact h.2 x (by rwa [hL] at hx)⟩

theorem runBalls_bowlingOrder_length (cfg : Config) (s : Innings)
    (outs : List Nat) :
    (runBalls cfg s outs).bowlingOrder.length = s.bowlingOrder.length := by
  induction outs generalizing s with
  | nil => rfl
  | cons o rest ih => rw [runBalls, ih, playBall_bowlingOrder_length]

theorem overLogInv_runBalls {cfg : Config} {s : Innings} (outs : List Nat)
    (h2 : 2 ≤ s.bowlingOrder.length) (h : OverLogInv s) :
    OverLogInv (runBalls cfg s outs) := by
  induction outs generalizing s with
  | nil => exact h
  | cons o rest ih =>
    exact ih (by rw [playBall_bowlingOrder_length]; exact h2)
      (overLogInv_step o h2 h)

/-- C8: over any execution of the innings engine with a bowling order of
length at least 2, the sequence of completed overs never has the same bowler
index in two adjacent overs. -/
theorem no_bowler_bowls_consecutive_overs (cfg : Config)
    (batting bowling : List PlayerState) (outs : List Nat)
    (h2 : 2 ≤ bowling.length) :
    noConsecutiveRepeat
      ((runBalls cfg (initInnings batting bowling) outs).overLog) = true := by
  have hinit : OverLogInv (initInnings batting bowling) :=
    ⟨rfl, fun x hx => by simp [initInnings] at hx⟩
  exact (overLogInv_runBalls outs (by simpa [initInnings] using h2) hinit).1

/-- Witness for C8: five bowlers, twelve balls (two completed overs). -/
theorem no_bowler_bowls_consecutive_overs_witness :
    2 ≤ teamBowl.length ∧
      noConsecutiveRepeat
        ((runBalls sourceConfig (initInnings teamBat teamBowl)
          (List.replicate 12 0)).overLog) = true :=
  ⟨by decide, no_bowler_bowls_consecutive_overs sourceConfig teamBat teamBowl
    (List.replicate 12 0) (by decide)⟩

/-! ### Batter replacement (claim C10) -/

/-- C10: on a wicket with a replacement available, the slot holding the
numerically higher batting index receives the next unused position, and the
slot holding the lower index — together with its on-strike/off-strike role —
is untouched (slot 1 is the on-strike slot). -/
theorem wicket_replaces_higher_batting_index (cfg : Config) (s : Innings)
    (hc : isInningsComplete cfg s = false)
    (hne : s.currentBatsman1 ≠ s.currentBatsman2)
    (hlt : max s.currentBatsman1 s.currentBatsman2 + 1 <
      s.battingOrder.length) :
    (s.currentBatsman1 < s.currentBatsman2 →
      (playBall cfg s 5).currentBatsman1 = s.currentBatsman1 ∧
        (playBall cfg s 5).currentBatsman2 =
          max s.currentBatsman1 s.currentBatsman2 + 1) ∧
    (s.currentBatsman2 < s.currentBatsman1 →
      (playBall cfg s 5).currentBatsman2 = s.currentBatsman2 ∧
        (playBall cfg s 5).currentBatsman1 =
          max s.currentBatsman1 s.currentBatsman2 + 1) := by
  constructor <;> intro hord
  · have hgt : ¬ s.currentBatsman1 > s.currentBatsman2 := by omega
    simp only [playBall, hc, Bool.false_eq_true, if_false, if_pos,
      changeBatsman, changeStrike, changeBowler]
    split_ifs <;> simp_all
  · have hgt : s.currentBatsman1 > s.currentBatsman2 := by omega
    simp only [playBall, hc, Bool.false_eq_true, if_false, if_pos,
      changeBatsman, changeStrike, changeBowler]
    split_ifs <;> simp_all

/-- Witness for C10: batting indices 1 (on strike) and 3, five batters. -/
theorem wicket_replaces_higher_batting_index_witness :
    isInningsComplete sourceConfig
        { initInnings teamBat teamBowl with
          currentBatsman1 := 1, currentBatsman2 := 3 } = false ∧
      (1 : Nat) ≠ 3 ∧ max 1 3 + 1 < teamBat.length ∧
      ((1 < 3 →
        (playBall sourceConfig
          { initInnings teamBat teamBowl with
            currentBatsman1 := 1, currentBatsman2 := 3 } 5).currentBatsman1 =
          1 ∧
        (playBall sourceConfig
          { initInnings teamBat teamBowl with
            currentBatsman1 := 1, currentBatsman2 := 3 } 5).currentBatsman2 =
          max 1 3 + 1) ∧
      (3 < 1 →
        (playBall sourceConfig
          { initInnings teamBat teamBowl with
            currentBatsman1 := 1, currentBatsman2 := 3 } 5).currentBatsman2 =
          3 ∧
        (playBall sourceConfig
          { initInnings teamBat teamBowl with
            currentBatsman1 := 1, currentBatsman2 := 3 } 5).currentBatsman1 =
          max 1 3 + 1)) :=
  ⟨by decide, by decide, by decide,
    wicket_replaces_higher_batting_index sourceConfig
      { initInnings teamBat teamBowl with
        currentBatsman1 := 1, currentBatsman2 := 3 }
      (by decide) (by decide) (by decide)⟩

/-! ### Balls bowled per delivery (claim C7) -/

theorem playBall_bowlingOrder {cfg : Config} {s : Innings} {o : Nat}
    (hc : isInningsComplete cfg s = false) :
    (playBall cfg s o).bowlingOrder =
      modifyAt addBall
        (if o = 5 then
          modifyAt (fun p => addBall (addWicket p)) s.bowlingOrder
            s.currentBowler
        else s.bowlingOrder) s.currentBowler := by
  simp only [playBall, hc, Bool.false_eq_true, if_false]
  by_cases h5 : o = 5 <;>
    simp only [h5, if_true, if_false, changeBatsman, changeStrike,
      changeBowler] <;>
    split_ifs <;>
    simp

/-- C7 as amended: every ball adds to the current (Bowler-typed) bowler's
balls-bowled tally — by exactly one on a run outcome, but by exactly two on a
wicket, because `Innings::playBall` calls `addBall()` in the wicket branch
and again in the per-ball epilogue. -/
theorem bowler_balls_bowled_per_ball (cfg : Config) (s : Innings) (o : Nat)
    (p : PlayerState) (hc : isInningsComplete cfg s = false)
    (hp : s.bowlingOrder.get? s.currentBowler = some p)
    (ht : p.type = PlayerType.BOWLER) :
    ((playBall cfg s o).bowlingOrder.get? s.currentBowler).map
        (fun q => q.ballsBowled) =
      some (p.ballsBowled + (if o = 5 then 2 else 1)) := by
  rw [playBall_bowlingOrder hc]
  by_cases h5 : o = 5
  · simp only [h5, if_true, modifyAt_get?, hp, Option.map_map, Option.map_some]
    simp [addBall, addWicket, updateCredits, ht]
  · simp only [h5, if_false, modifyAt_get?, hp, Option.map_some]
    simp [addBall, ht]

/-- Counterexample to C7 as stated: after a single wicket ball from a fresh
innings the bowler's balls-bowled count is 2, not 1. -/
theorem bowler_balls_bowled_counterexample :
    ((initInnings teamBat teamBowl).bowlingOrder.get? 0).map
        (fun q => q.ballsBowled) = some 0 ∧
      ((runBalls sourceConfig (initInnings teamBat teamBowl)
          [5]).bowlingOrder.get? 0).map (fun q => q.ballsBowled) = some 2 := by
  exact ⟨rfl, rfl⟩

/-- Witness for the amended C7 at a fresh innings and a wicket ball. -/
theorem bowler_balls_bowled_per_ball_witness :
    isInningsComplete sourceConfig (initInnings teamBat teamBowl) = false ∧
      (initInnings teamBat teamBowl).bowlingOrder.get?
          (initInnings teamBat teamBowl).currentBowler =
        some (mkPlayer "B1" 25 PlayerType.BOWLER) ∧
      (mkPlayer "B1" 25 PlayerType.BOWLER).type = PlayerType.BOWLER ∧
      ((playBall sourceConfig (initInnings teamBat teamBowl)
            5).bowlingOrder.get?
          (initInnings teamBat teamBowl).currentBowler).map
        (fun q => q.ballsBowled) =
        some ((mkPlayer "B1" 25 PlayerType.BOWLER).ballsBowled +
          (if (5 : Nat) = 5 then 2 else 1)) :=
  ⟨by decide, rfl, rfl,
    bowler_balls_bowled_per_ball sourceConfig (initInnings teamBat teamBowl) 5
      (mkPlayer "B1" 25 PlayerType.BOWLER) (by decide) rfl rfl⟩

/-! ### Lineup setup (claim C9) -/

theorem scanName_not_found {l : List PlayerState} {target : String}
    (h : ∀ p ∈ l, p.name ≠ target) :
    ∀ i cur, scanName l target i cur = cur := by
  induction l with
  | nil => intro i cur; rfl
  | cons p rest ih =>
    intro i cur
    rw [scanName, if_neg (h p (List.mem_cons_self p rest))]
    exact ih (fun q hq => h q (List.mem_cons_of_mem p hq)) _ _

/-- C9 as amended: when a named opening striker, non-striker or bowler is
absent from the supplied lineup, `setBatsmen`/`setBowler` silently leave the
corresponding index at its previous value (the default opening indices for a
fresh innings) and report nothing — the setup functions return `void` in the
source, so there is no error channel at all — and play proceeds from those
defaults. -/
theorem setup_silently_keeps_defaults (s : Innings)
    (striker nonStriker bowlerName : String)
    (h1 : ∀ p ∈ s.battingOrder, p.name ≠ striker)
    (h2 : ∀ p ∈ s.battingOrder, p.name ≠ nonStriker)
    (h3 : ∀ p ∈ s.bowlingOrder, p.name ≠ bowlerName) :
    (setBowler (setBatsmen s striker nonStriker)
        bowlerName).currentBatsman1 = s.currentBatsman1 ∧
      (setBowler (setBatsmen s striker nonStriker)
        bowlerName).currentBatsman2 = s.currentBatsman2 ∧
      (setBowler (setBatsmen s striker nonStriker)
        bowlerName).currentBowler = s.currentBowler := by
  refine ⟨?_, ?_, ?_⟩ <;>
    simp [setBowler, setBatsmen, scanName_not_found h1,
      scanName_not_found h2, scanName_not_found h3]

/-- Counterexample to C9 as stated: with the absent striker name Zed and the
absent bowler name Qux (the non-striker A4 is present), the setup pipeline
reports nothing and proceeds with the default indices 0 and 0 for striker
and bowler — the innings then accepts balls as usual. -/
theorem setup_silently_keeps_defaults_counterexample :
    (setBowler (setBatsmen (initInnings teamBat teamBowl) "Zed" "A4")
        "Qux").currentBatsman1 = 0 ∧
      (setBowler (setBatsmen (initInnings teamBat teamBowl) "Zed" "A4")
        "Qux").currentBatsman2 = 3 ∧
      (setBowler (setBatsmen (initInnings teamBat teamBowl) "Zed" "A4")
        "Qux").currentBowler = 0 ∧
      isInningsComplete sourceConfig
        (setBowler (setBatsmen (initInnings teamBat teamBowl) "Zed" "A4")
          "Qux") = false := by
  exact ⟨rfl, rfl, rfl, rfl⟩

/-- Witness for the amended C9: every supplied name absent from a fresh
five-a-side innings. -/
theorem setup_silently_keeps_defaults_witness :
    (∀ p ∈ (initInnings teamBat teamBowl).battingOrder, p.name ≠ "Zed") ∧
      (∀ p ∈ (initInnings teamBat teamBowl).battingOrder, p.name ≠ "Yan") ∧
      (∀ p ∈ (initInnings teamBat teamBowl).bowlingOrder, p.name ≠ "Qux") ∧
      ((setBowler (setBatsmen (initInnings teamBat teamBowl) "Zed" "Yan")
          "Qux").currentBatsman1 = (initInnings teamBat teamBowl).currentBatsman1 ∧
        (setBowler (setBatsmen (initInnings teamBat teamBowl) "Zed" "Yan")
          "Qux").currentBatsman2 = (initInnings teamBat teamBowl).currentBatsman2 ∧
        (setBowler (setBatsmen (initInnings teamBat teamBowl) "Zed" "Yan")
          "Qux").currentBowler = (initInnings teamBat teamBowl).currentBowler) :=
  ⟨by decide, by decide, by decide,
    setup_silently_keeps_defaults (initInnings teamBat teamBowl) "Zed" "Yan"
      "Qux" (by decide) (by decide) (by decide)⟩

/-! ### Standout-player selection (claim C4) -/

/-- Reference form of the scan of `getPlayerOfInnings`: starting from a
candidate `b`, take each later player only on a strictly greater match-credit
count. -/
def firstMaxFrom (b : PlayerState) : List PlayerState → PlayerState
  | [] => b
  | p :: rest =>
      if b.matchCredits < p.matchCredits then firstMaxFrom p rest
      else firstMaxFrom b rest

theorem scanBest_some (l : List PlayerState) :
    ∀ b : PlayerState,
      scanBest l (some b, (b.matchCredits : Int)) =
        (some (firstMaxFrom b l), ((firstMaxFrom b l).matchCredits : Int)) := by
  induction l with
  | nil => intro b; rfl
  | cons p rest ih =>
    intro b
    by_cases h : b.matchCredits < p.matchCredits
    · have h' : (b.matchCredits : Int) < (p.matchCredits : Int) := by
        exact_mod_cast h
      simp only [scanBest, firstMaxFrom]
      rw [if_pos h', if_pos h]
      exact ih p
    · have h' : ¬ (b.matchCredits : Int) < (p.matchCredits : Int) := by
        exact_mod_cast h
      simp only [scanBest, firstMaxFrom]
      rw [if_neg h', if_neg h]
      exact ih b

theorem scanBest_start (p : PlayerState) (rest : List PlayerState) :
    scanBest (p :: rest) (none, -1) =
      (some (firstMaxFrom p rest),
        ((firstMaxFrom p rest).matchCredits : Int)) := by
  have h : (-1 : Int) < (p.matchCredits : Int) := by
    have := Int.natCast_nonneg p.matchCredits
    omega
  simp only [scanBest]
  rw [if_pos h]
  exact scanBest_some rest p

theorem firstMaxFrom_append (l1 : List PlayerState) :
    ∀ (b : PlayerState) (l2 : List PlayerState),
      firstMaxFrom b (l1 ++ l2) = firstMaxFrom (firstMaxFrom b l1) l2 := by
  induction l1 with
  | nil => intro b l2; rfl
  | cons p rest ih =>
    intro b l2
    simp only [List.cons_append, firstMaxFrom]
    by_cases h : b.matchCredits < p.matchCredits
    · rw [if_pos h, if_pos h]; exact ih p l2
    · rw [if_neg h, if_neg h]; exact ih b l2

/-- `r` is the first player of `l` attaining the maximal match-credit count:
every player's credits are bounded by `r`'s, and every player strictly
before `r`'s position has strictly fewer credits. -/
def IsFirstMax (l : List PlayerState) (r : PlayerState) : Prop :=
  (∀ q ∈ l, q.matchCredits ≤ r.matchCredits) ∧
    ∃ i, l.get? i = some r ∧
      ∀ j q, j < i → l.get? j = some q → q.matchCredits < r.matchCredits

theorem firstMaxFrom_isFirstMax (l : List PlayerState) :
    ∀ b : PlayerState, IsFirstMax (b :: l) (firstMaxFrom b l) := by
  induction l with
  | nil =>
    intro b
    refine ⟨?_, 0, rfl, ?_⟩
    · intro q hq
      have : q = b := by simpa [firstMaxFrom] using hq
      simp [this, firstMaxFrom]
    · intro j q hj _; omega
  | cons p rest ih =>
    intro b
    by_cases h : b.matchCredits < p.matchCredits
    · obtain ⟨hmax, i, hi, hfirst⟩ := ih p
      have hr : firstMaxFrom b (p :: rest) = firstMaxFrom p rest := by
        simp only [firstMaxFrom]; rw [if_pos h]
      rw [hr]
      have hpr : p.matchCredits ≤ (firstMaxFrom p rest).matchCredits :=
        hmax p (List.mem_cons_self p rest)
      refine ⟨?_, i + 1, by simpa using hi, ?_⟩
      · intro q hq
        rcases List.mem_cons.mp hq with rfl | hq'
        · omega
        · exact hmax q hq'
      · intro j q hj hq
        cases j with
        | zero =>
          have hbq : b = q := by simpa using hq
          rw [← hbq]
          omega
        | succ k =>
          exact hfirst k q (by omega) (by simpa using hq)
    · obtain ⟨hmax, i, hi, hfirst⟩ := ih b
      have hr : firstMaxFrom b (p :: rest) = firstMaxFrom b rest := by
        simp only [firstMaxFrom]; rw [if_neg h]
      rw [hr]
      have hbr : b.matchCredits ≤ (firstMaxFrom b rest).matchCredits :=
        hmax b (List.mem_cons_self b rest)
      have hmax' : ∀ q ∈ b :: p :: rest,
          q.matchCredits ≤ (firstMaxFrom b rest).matchCredits := by
        intro q hq
        rcases List.mem_cons.mp hq with rfl | hq'
        · exact hbr
        · rcases List.mem_cons.mp hq' with rfl | hq''
          · omega
          · exact hmax q (List.mem_cons_of_mem b hq'')
      cases i with
      | zero =>
        have hrb : b = firstMaxFrom b rest := by simpa using hi
        refine ⟨hmax', 0, by simpa using hrb, ?_⟩
        intro j q hj _; omega
      | succ k =>
        refine ⟨hmax', k + 2, by simpa using hi, ?_⟩
        intro j q hj hq
        match j with
        | 0 =>
          have hqb : b = q := by simpa using hq
          have hb := hfirst 0 b (by omega) (by rfl)
          rw [← hqb]
          omega
        | 1 =>
          have hqp : p = q := by simpa using hq
          have hb := hfirst 0 b (by omega) (by rfl)
          rw [← hqp]
          omega
        | Nat.succ (Nat.succ m) =>
          exact hfirst (m + 1) q (by omega) (by simpa using hq)

theorem getPlayerOfInnings_isFirstMax {s : Innings} {p : PlayerState}
    (h : getPlayerOfInnings s = some p) :
    IsFirstMax (s.battingOrder ++ s.bowlingOrder) p := by
  unfold getPlayerOfInnings at h
  cases hbat : s.battingOrder with
  | nil =>
    rw [hbat] at h
    cases hbowl : s.bowlingOrder with
    | nil => rw [hbowl] at h; exact absurd h (by simp [scanBest])
    | cons q qs =>
      rw [hbowl] at h
      rw [show scanBest ([] : List PlayerState) (none, -1) = (none, -1) from
        rfl, scanBest_start q qs] at h
      have hp : firstMaxFrom q qs = p := by simpa using h
      rw [← hp]
      simpa using firstMaxFrom_isFirstMax qs q
  | cons b bs =>
    rw [hbat, scanBest_start b bs, scanBest_some] at h
    have hp : firstMaxFrom (firstMaxFrom b bs) s.bowlingOrder = p := by
      simpa using h
    rw [← hp, ← firstMaxFrom_append]
    exact firstMaxFrom_isFirstMax (bs ++ s.bowlingOrder) b

/-- C4 as amended: each innings awardee is the first player with maximal
match-scoped credit in the concatenation of batting order and bowling order;
the match standout is the awardee with strictly higher credit, but a tie
goes to the SECOND innings' awardee (team B's), because
`Match::calculatePlayerOfMatch` keeps `player1` only on a strict
comparison. -/
theorem standout_player_selection (i1 i2 : Innings) (p1 p2 : PlayerState)
    (h1 : getPlayerOfInnings i1 = some p1)
    (h2 : getPlayerOfInnings i2 = some p2) :
    IsFirstMax (i1.battingOrder ++ i1.bowlingOrder) p1 ∧
      IsFirstMax (i2.battingOrder ++ i2.bowlingOrder) p2 ∧
      (p2.matchCredits < p1.matchCredits →
        calculatePlayerOfMatch i1 i2 = some p1) ∧
      (p1.matchCredits ≤ p2.matchCredits →
        calculatePlayerOfMatch i1 i2 = some p2) := by
  refine ⟨getPlayerOfInnings_isFirstMax h1,
    getPlayerOfInnings_isFirstMax h2, ?_, ?_⟩
  · intro hlt
    simp [calculatePlayerOfMatch, h1, h2, hlt]
  · intro hle
    have hnlt : ¬ p1.matchCredits > p2.matchCredits := by omega
    simp [calculatePlayerOfMatch, h1, h2, hnlt]

/-- First innings used against the tie direction of C4: the visiting bowler
X takes the only wicket and ends on one match credit. -/
def tieInnA : Innings :=
  runBalls sourceConfig
    (initInnings teamBat
      [mkPlayer "X" 25 PlayerType.BOWLER, mkPlayer "X2" 25 PlayerType.BOWLER])
    (5 :: List.replicate 11 0)

/-- Second innings: bowler Y likewise ends on one match credit. -/
def tieInnB : Innings :=
  runBalls sourceConfig
    (initInnings teamBowl
      [mkPlayer "Y" 25 PlayerType.BOWLER, mkPlayer "Y2" 25 PlayerType.BOWLER])
    (5 :: List.replicate 11 0)

/-- Counterexample to C4 as stated: both awardees hold one match credit, yet
the match standout is the second innings' awardee Y, not the first
computed (X). -/
theorem standout_tie_counterexample :
    (getPlayerOfInnings tieInnA).map (fun p => (p.name, p.matchCredits)) =
        some ("X", 1) ∧
      (getPlayerOfInnings tieInnB).map (fun p => (p.name, p.matchCredits)) =
        some ("Y", 1) ∧
      (calculatePlayerOfMatch tieInnA tieInnB).map (fun p => p.name) =
        some "Y" := by
  exact ⟨rfl, rfl, rfl⟩

/-- Witness for the amended C4 at two fresh innings, whose awardees are the
respective opening batters (zero credits apiece, so the tie rule fires). -/
theorem standout_player_selection_witness :
    getPlayerOfInnings (initInnings teamBat teamBowl) =
        some (mkPlayer "A1" 25 PlayerType.BATSMAN) ∧
      getPlayerOfInnings (initInnings teamBowl teamBat) =
        some (mkPlayer "B1" 25 PlayerType.BOWLER) ∧
      (IsFirstMax
          ((initInnings teamBat teamBowl).battingOrder ++
            (initInnings teamBat teamBowl).bowlingOrder)
          (mkPlayer "A1" 25 PlayerType.BATSMAN) ∧
        IsFirstMax
          ((initInnings teamBowl teamBat).battingOrder ++
            (initInnings teamBowl teamBat).bowlingOrder)
          (mkPlayer "B1" 25 PlayerType.BOWLER) ∧
        ((mkPlayer "B1" 25 PlayerType.BOWLER).matchCredits <
            (mkPlayer "A1" 25 PlayerType.BATSMAN).matchCredits →
          calculatePlayerOfMatch (initInnings teamBat teamBowl)
              (initInnings teamBowl teamBat) =
            some (mkPlayer "A1" 25 PlayerType.BATSMAN)) ∧
        ((mkPlayer "A1" 25 PlayerType.BATSMAN).matchCredits ≤
            (mkPlayer "B1" 25 PlayerType.BOWLER).matchCredits →
          calculatePlayerOfMatch (initInnings teamBat teamBowl)
              (initInnings teamBowl teamBat) =
            some (mkPlayer "B1" 25 PlayerType.BOWLER))) :=
  ⟨rfl, rfl,
    standout_player_selection (initInnings teamBat teamBowl)
      (initInnings teamBowl teamBat) (mkPlayer "A1" 25 PlayerType.BATSMAN)
      (mkPlayer "B1" 25 PlayerType.BOWLER) rfl rfl⟩

/-! ### Concrete evaluations exhibiting code defects (claims C1, C2, C3, C6) -/

/-- C1 (code defect): a batter who has scored 24 runs in the match — four
sixes — holds zero match credits, although `24 / 20 = 1`.
`Batsman::addRuns` passes only the current ball's runs to `updateCredits`,
and a single ball never reaches 20, so the `runs / 20` term (commented
`20 runs = 1 credit` in the source) is always zero during play. -/
theorem batting_credit_zero_despite_24_runs :
    ((runBalls sourceConfig (initInnings teamBat teamBowl)
          [6, 6, 6, 6]).battingOrder.get? 0).map
        (fun p => (p.runsScored, p.matchCredits)) = some (24, 0) ∧
      (24 : Nat) / 20 = 1 :=
  ⟨rfl, rfl⟩

/-- C2 (code defect): after a single ball worth 4 runs, the innings total and
the striker's runs are 4, but the bowler's runs-conceded counters are still
0: the runs branch of `Innings::playBall` never invokes the bowler's
`addRuns`. -/
theorem bowler_runs_conceded_never_credited :
    (runBalls sourceConfig (initInnings teamBat teamBowl) [4]).totalRuns = 4 ∧
      ((runBalls sourceConfig (initInnings teamBat teamBowl)
            [4]).battingOrder.get? 0).map (fun p => p.runsScored) = some 4 ∧
      ((runBalls sourceConfig (initInnings teamBat teamBowl)
            [4]).bowlingOrder.get? 0).map
        (fun p => (p.runsConceded, p.totalRunsConceded)) = some (0, 0) :=
  ⟨rfl, rfl, rfl⟩

/-- Five further batters for the second opponent of the credit-flow chain. -/
def teamOppC : List PlayerState :=
  [mkPlayer "C1" 25 PlayerType.BATSMAN, mkPlayer "C2" 25 PlayerType.BATSMAN,
   mkPlayer "C3" 25 PlayerType.BATSMAN, mkPlayer "C4" 25 PlayerType.BATSMAN,
   mkPlayer "C5" 25 PlayerType.BATSMAN]

/-- First innings of match one of the credit-flow chain (the tracked team
`teamBowl` bats first, as team 1 of `Match::playMatch` does): twelve dot
balls. -/
def matchOneInn1 : Innings :=
  runBalls sourceConfig (initInnings teamBowl teamBat) (List.replicate 12 0)

/-- Second innings of match one: per `Match`'s constructor the sides swap,
and the player states flow on unchanged (the C++ `Innings` holds
`shared_ptr`s into the same `Player` objects).  Bowler B1 opens and takes a
wicket on the first ball. -/
def matchOneInn2 : Innings :=
  runBalls sourceConfig
    (initInnings matchOneInn1.bowlingOrder matchOneInn1.battingOrder)
    (5 :: List.replicate 11 0)

/-- The tracked team's player states right after match one.  On the path
from here into the next match — `Match::playMatch` finishing with
`determineResult` (team counters only) and `calculatePlayerOfMatch`
(read-only), then `Tournament::playRound` constructing the next `Match` —
no call to `resetMatchStats`/`resetMatchCredits` occurs anywhere in the
source, so the states enter match two exactly as they left match one. -/
def teamAfterMatchOne : List PlayerState := matchOneInn2.bowlingOrder

/-- First innings of match two, against the fresh opponent `teamOppC`. -/
def matchTwoInn1 : Innings :=
  runBalls sourceConfig (initInnings teamAfterMatchOne teamOppC)
    (List.replicate 12 0)

/-- Second innings of match two: B1 again takes a wicket on the first
ball. -/
def matchTwoInn2 : Innings :=
  runBalls sourceConfig
    (initInnings matchTwoInn1.bowlingOrder matchTwoInn1.battingOrder)
    (5 :: List.replicate 11 0)

set_option maxRecDepth 8192 in
/-- C3 (code defect): bowler B1 takes exactly one wicket in each of two
consecutive matches.  After match one both credit scopes read 1; after match
two the supposedly match-scoped credit reads 2, not 1 — match credits are
never reset at a match boundary, so career credit after a match is NOT
(career before) + (that match's credit) either. -/
theorem match_credits_not_reset_across_matches :
    ((teamAfterMatchOne.get? 0).map
        (fun p => (p.matchCredits, p.totalCredits)) = some (1, 1)) ∧
      ((matchTwoInn2.bowlingOrder.get? 0).map
        (fun p => (p.matchCredits, p.totalCredits)) = some (2, 2)) :=
  ⟨rfl, rfl⟩

/-- A configuration whose wicket limit exceeds what a five-batter order can
support, exercising the exhausted-batting-order branch of
`Innings::changeBatsman`. -/
def fiveWicketConfig : Config := { maxWickets := 5, maxOvers := 2 }

/-- C6 (code defect): with `maxWickets = 5` and a five-batter order, four
straight wickets walk the batting indices to (0, 4); the fourth wicket finds
no unused position (`max 0 4 + 1 = 5` is out of range), yet `changeBatsman`
merely leaves the indices unchanged and `isInningsComplete` still reports
false — the innings is not forced to complete. -/
theorem exhausted_batting_order_does_not_force_completion :
    isInningsComplete fiveWicketConfig
        (runBalls fiveWicketConfig (initInnings teamBat teamBowl)
          [5, 5, 5, 5]) = false ∧
      (runBalls fiveWicketConfig (initInnings teamBat teamBowl)
          [5, 5, 5, 5]).totalWickets = 4 ∧
      (runBalls fiveWicketConfig (initInnings teamBat teamBowl)
          [5, 5, 5, 5]).currentBatsman1 = 0 ∧
      (runBalls fiveWicketConfig (initInnings teamBat teamBowl)
          [5, 5, 5, 5]).currentBatsman2 = 4 ∧
      (runBalls fiveWicketConfig (initInnings teamBat teamBowl)
          [5, 5, 5, 5]).battingOrder.length = 5 :=
  ⟨rfl, rfl, rfl, rfl, rfl⟩

end TournSim
